import Mathlib

/-!
Verification of the Tripsy tool-use orchestrator (`src/orchestrator.py`) and
its email collaborator (`src/tools/email_tool/tool.py`), as a shallow
embedding in Lean 4.  Python dicts become association lists, the Anthropic
model client becomes a deterministic function from the transcript to a
response, capability functions become an environment mapping function
identifiers to `Except`-valued calls (an `Except.error` models a raised
Python exception), and the unbounded `while True` chat loop becomes a
fuel-indexed recursion returning `Option` (with `none` for fuel exhaustion).
-/

namespace Tripsy

/-- Keyword arguments of a tool call (`block.input`, a JSON object), kept as
an association list of field names to rendered values; the orchestrator only
forwards them opaquely. -/
abbrev ToolArgs := List (String × String)

/-- A Python function object as the orchestrator sees it: an identifier into
the capability environment plus whether `callable(fn)` holds. -/
structure PyFn where
  fid : Nat
  callable : Bool
deriving DecidableEq

/-- Capability environment: interprets a function identifier applied to
keyword arguments.  `Except.ok v` is a normal return whose value renders as
`v` under `str`; `Except.error msg` is a raised exception whose `str(exc)`
is `msg`. -/
abbrev FnEnv := Nat → ToolArgs → Except String String

/-- A content block of a model response: either a text block or a
tool-invocation-request block (`type == "tool_use"`, with `id`, `name`,
`input`). -/
inductive ContentBlock
  | text (s : String)
  | toolUse (id : String) (name : String) (input : ToolArgs)
deriving DecidableEq

/-- A `tool_result` block sent back to the model: `tool_use_id`, the
string-coerced result, and the `is_error` flag (absence of the key in the
Python dict is modelled as `false`). -/
structure ToolResultBlock where
  toolUseId : String
  content : String
  isError : Bool
deriving DecidableEq

/-- The content payload of one transcript turn: the plain-text user prompt,
the raw content of a model response (assistant turns), or a list of
`tool_result` blocks (tool-outcome user turns). -/
inductive MsgContent
  | text (s : String)
  | modelBlocks (bs : List ContentBlock)
  | toolResults (rs : List ToolResultBlock)
deriving DecidableEq

/-- One turn of the conversation state (`messages` list entry). -/
structure Message where
  role : String
  content : MsgContent
deriving DecidableEq

/-- A model response: `stop_reason` and ordered content blocks. -/
structure ModelResponse where
  stopReason : String
  content : List ContentBlock
deriving DecidableEq

/-- The deterministic model client: `_send` applied to the transcript.
Model, tools and max_tokens are fixed per orchestrator instance, so they are
absorbed into the function. -/
abbrev MClient := List Message → ModelResponse

/-- The tool registry `self._registry`, a Python dict from tool name to the
registered function, as an association list with unique keys maintained by
insertion. -/
abbrev Registry := List (String × PyFn)

/-- Python `dict.get`: first (and, for dicts, only) binding of the key. -/
def dictGet : Registry → String → Option PyFn
  | [], _ => none
  | (k, v) :: rest, n => if k = n then some v else dictGet rest n

/-- Python `d[k] = v`: overwrite the binding in place if the key is present,
append it otherwise. -/
def dictInsert : Registry → String → PyFn → Registry
  | [], n, f => [(n, f)]
  | (k, v) :: rest, n, f =>
    if k = n then (n, f) :: rest else (k, v) :: dictInsert rest n f

/-- An ASCII single-quote character, used in the tool-not-found diagnostic. -/
def squote : String := String.singleton (Char.ofNat 39)

/-- Diagnostic text returned by `_execute_local_tool` when the name has no
binding: `No local implementation found for tool <name>` with the name in
single quotes. -/
def noToolMsg (name : String) : String :=
  "No local implementation found for tool " ++ squote ++ name ++ squote

/-- Text returned by `_execute_local_tool` when the capability function
raises: `Tool execution failed: ` followed by the exception message. -/
def toolFailMsg (emsg : String) : String :=
  "Tool execution failed: " ++ emsg

/-- Embedding of `AnthropicOrchestrator._execute_local_tool` (orchestrator.py
lines 125-133): look the name up in the registry; if absent return the
diagnostic with the error flag set; otherwise call the function, catching
any raised exception into an error-flagged message. -/
def executeLocalTool (env : FnEnv) (registry : Registry) (name : String)
    (kwargs : ToolArgs) : String × Bool :=
  match dictGet registry name with
  | none => (noToolMsg name, true)
  | some fn =>
    match env fn.fid kwargs with
    | Except.ok v => (v, false)
    | Except.error exc => (toolFailMsg exc, true)

/-- One iteration of the `for block in response.content` loop in `chat`
(orchestrator.py lines 77-103): text blocks are skipped (`continue`); for a
tool-use block the registered function is executed and `messages` is
extended with an assistant turn holding the full raw response content and a
user turn holding the single tool_result for this block. -/
def dispatchStep (env : FnEnv) (registry : Registry)
    (respContent : List ContentBlock) (ms : List Message)
    (b : ContentBlock) : List Message :=
  match b with
  | ContentBlock.text _ => ms
  | ContentBlock.toolUse id name input =>
    let r := executeLocalTool env registry name input
    ms ++ [⟨"assistant", MsgContent.modelBlocks respContent⟩,
           ⟨"user", MsgContent.toolResults [⟨id, r.1, r.2⟩]⟩]

/-- The whole `stop_reason == "tool_use"` branch of one `while` iteration:
fold the per-block dispatch over the response content in order. -/
def processResponse (env : FnEnv) (registry : Registry)
    (resp : ModelResponse) (ms : List Message) : List Message :=
  resp.content.foldl (dispatchStep env registry resp.content) ms

/-- Embedding of the `while True` loop of `AnthropicOrchestrator.chat`
(orchestrator.py lines 72-108), instrumented: on termination it returns the
final response, the final transcript, and the ordered list of every model
response received (so the number of model-client calls is the length of that
list).  `none` means the fuel ran out before the model produced a
non-tool-use response. -/
def chatRun (client : MClient) (env : FnEnv) (registry : Registry) :
    Nat → List Message → Option (ModelResponse × List Message × List ModelResponse)
  | 0, _ => none
  | fuel + 1, ms =>
    let response := client ms
    if response.stopReason = "tool_use" then
      match chatRun client env registry fuel (processResponse env registry response ms) with
      | none => none
      | some (r, fms, rs) => some (r, fms, response :: rs)
    else
      some (response, ms, [response])

/-- Embedding of `AnthropicOrchestrator.chat`: seed the state with the
single user turn holding the prompt, run the loop, and return the final
response (the Python return value). -/
def chat (client : MClient) (env : FnEnv) (registry : Registry) (fuel : Nat)
    (userPrompt : String) : Option ModelResponse :=
  (chatRun client env registry fuel [⟨"user", MsgContent.text userPrompt⟩]).map
    (fun p => p.1)

/-- A tool definition dict as `register_tool` consumes it: `tool_def["name"]`
may be missing (modelled by `none`, in Python a `KeyError`); the remaining
fields are opaque to the orchestrator. -/
structure ToolDef where
  name : Option String
  descr : String
deriving DecidableEq

/-- Orchestrator registration state: the advertised declarations `self.tools`
and the dispatch registry `self._registry`. -/
structure OrchState where
  tools : List ToolDef
  registry : Registry
deriving DecidableEq

/-- The exception raised by a failing `register_tool` call: `KeyError` from
`tool_def["name"]`, or `AssertionError` from `assert callable(python_fn)`. -/
inductive RegError
  | keyErrorName
  | assertNotCallable
deriving DecidableEq

/-- Result of `register_tool`: normal return with the updated state, or a
raised exception paired with the state at the moment of the raise. -/
inductive RegResult
  | ok (s : OrchState)
  | raised (e : RegError) (s : OrchState)
deriving DecidableEq

/-- Embedding of `AnthropicOrchestrator.register_tool` (orchestrator.py
lines 61-66), statement by statement: read `tool_def["name"]` (raising if
absent), assert callability (raising if not), then append the declaration to
`self.tools` and overwrite `self._registry[name]`.  Both raises happen
before either mutation, so a raise carries the unchanged state. -/
def registerTool (s : OrchState) (toolDef : ToolDef) (pythonFn : PyFn) : RegResult :=
  match toolDef.name with
  | none => RegResult.raised RegError.keyErrorName s
  | some name =>
    if pythonFn.callable then
      RegResult.ok ⟨s.tools ++ [toolDef], dictInsert s.registry name pythonFn⟩
    else
      RegResult.raised RegError.assertNotCallable s

/-- The `id` fields of the tool-use blocks of a content list, in order. -/
def toolUseIds (bs : List ContentBlock) : List String :=
  bs.filterMap fun b =>
    match b with
    | ContentBlock.toolUse id _ _ => some id
    | _ => none

/-- How many tool_result blocks tagged with `id` a single turn holds. -/
def msgResultCount (id : String) (m : Message) : Nat :=
  match m.content with
  | MsgContent.toolResults rs => (rs.filter (fun r => r.toolUseId = id)).length
  | _ => 0

/-- How many tool_result blocks tagged with `id` the transcript holds. -/
def countResults (id : String) (ms : List Message) : Nat :=
  (ms.map (msgResultCount id)).sum

-- ---------------------------------------------------------------------------
-- Email collaborator (src/tools/email_tool/tool.py)
-- ---------------------------------------------------------------------------

/-- One fetched email after header and body extraction in `fetch_emails`
(tool.py lines 169-198): the Subject header value and the decoded body
(plain text preferred over HTML, empty when both are missing). -/
structure EmailData where
  subject : String
  body : String
deriving DecidableEq

/-- Python `needle in hay` on strings: substring occurrence. -/
def pyIn (needle hay : String) : Bool := decide (needle.data <:+: hay.data)

/-- Embedding of the `for keyword in content_keywords` loop of
`fetch_emails` (tool.py lines 205-210): `break` on the first keyword whose
lowercasing occurs in the searched text, leaving `content_match = True`;
`False` when no keyword matches. -/
def contentMatchLoop (contentToSearch : String) : List String → Bool
  | [] => false
  | k :: rest =>
    if pyIn k.toLower contentToSearch then true
    else contentMatchLoop contentToSearch rest

/-- Whether `fetch_emails` marks one email as a content match (tool.py lines
200-210): with a falsey `content_keywords` (None or empty list) the guard
`if content_keywords:` skips the loop and `content_match` stays `False`;
otherwise the searched text is the subject concatenated with the lowercased
body, with no separator. -/
def emailContentMatch (contentKeywords : Option (List String)) (e : EmailData) : Bool :=
  match contentKeywords with
  | none => false
  | some kws => contentMatchLoop (e.subject ++ e.body.toLower) kws

/-- The filtering stage of `fetch_emails` (tool.py lines 163-214): iterate
over the fetched messages in order, appending to `fetched_emails` exactly
those whose `content_match` flag is set, and return the accumulated list. -/
def fetchEmailsFilter (msgs : List EmailData)
    (contentKeywords : Option (List String)) : List EmailData :=
  msgs.foldl
    (fun acc e => if emailContentMatch contentKeywords e then acc ++ [e] else acc) []

-- ---------------------------------------------------------------------------
-- Concrete fixtures for witnesses and concrete evaluations
-- ---------------------------------------------------------------------------

/-- A capability environment in which every call returns `r`. -/
def env0 : FnEnv := fun _ _ => Except.ok "r"

/-- A second spelling of the same environment, to exercise determinism
across extensionally equal collaborators. -/
def env0b : FnEnv := fun _ _ => Except.ok "r"

/-- A registry with a single tool `t`. -/
def reg0 : Registry := [("t", ⟨0, true⟩)]

/-- A model response requesting two tool invocations of `t` in one turn. -/
def respTwo : ModelResponse :=
  ⟨"tool_use",
    [ContentBlock.toolUse "id1" "t" [], ContentBlock.toolUse "id2" "t" []]⟩

/-- A model response requesting one tool invocation of `t`. -/
def respTool : ModelResponse :=
  ⟨"tool_use", [ContentBlock.toolUse "id1" "t" []]⟩

/-- A final model response. -/
def respFinal : ModelResponse := ⟨"end_turn", [ContentBlock.text "done"]⟩

/-- A deterministic stub client: one tool-use response on the seed
transcript, the final response afterwards. -/
def client1 : MClient := fun ms => if ms.length ≤ 1 then respTool else respFinal

/-- A second spelling of the same stub client. -/
def client1b : MClient := fun ms => if ms.length ≤ 1 then respTool else respFinal

/-- A seed transcript holding one user prompt. -/
def msP : List Message := [⟨"user", MsgContent.text "hi"⟩]

/-- The transcript after dispatching `respTool` from `msP`. -/
def msAfterTool : List Message :=
  msP ++ [⟨"assistant", MsgContent.modelBlocks respTool.content⟩,
          ⟨"user", MsgContent.toolResults [⟨"id1", "r", false⟩]⟩]

-- ---------------------------------------------------------------------------
-- Helper lemmas
-- ---------------------------------------------------------------------------

/-- A non-empty list is one longer than its `dropLast`. -/
theorem length_eq_dropLast_length_succ {α : Type} (l : List α) (h : l ≠ []) :
    l.length = l.dropLast.length + 1 := by
  have hpos := List.length_pos.mpr h
  rw [List.length_dropLast]
  omega

/-- The append-if fold of `fetch_emails` is the filter of its predicate. -/
theorem foldl_append_if_eq_filter (p : EmailData → Bool) (msgs : List EmailData) :
    ∀ acc : List EmailData,
      msgs.foldl (fun acc e => if p e then acc ++ [e] else acc) acc =
        acc ++ msgs.filter p := by
  induction msgs with
  | nil => intro acc; simp
  | cons e rest ih =>
    intro acc
    by_cases h : p e
    · simp [List.foldl_cons, h, ih]
    · simp [List.foldl_cons, h, ih]

/-- The fetched-email list is the filter of the content-match flag. -/
theorem fetchEmailsFilter_eq_filter (msgs : List EmailData)
    (ck : Option (List String)) :
    fetchEmailsFilter msgs ck = msgs.filter (emailContentMatch ck) := by
  unfold fetchEmailsFilter
  simpa using foldl_append_if_eq_filter (emailContentMatch ck) msgs []

/-- The break-on-first-match keyword loop succeeds exactly when some keyword
matches. -/
theorem contentMatchLoop_iff (text : String) (kws : List String) :
    contentMatchLoop text kws = true ↔
      ∃ k, k ∈ kws ∧ pyIn k.toLower text = true := by
  induction kws with
  | nil => simp [contentMatchLoop]
  | cons k rest ih =>
    by_cases h : pyIn k.toLower text = true
    · simp [contentMatchLoop, h]
    · simp only [contentMatchLoop, if_neg h, ih]
      constructor
      · rintro ⟨k', hk', hp⟩
        exact ⟨k', List.mem_cons_of_mem _ hk', hp⟩
      · rintro ⟨k', hk', hp⟩
        rcases List.mem_cons.mp hk' with rfl | hk'
        · exact absurd hp h
        · exact ⟨k', hk', hp⟩

/-- On a tool-use response, the chat loop dispatches the blocks and keeps
going: one more client call is recorded and the loop recurses on the
extended transcript.  No dispatch outcome can abort it. -/
theorem chatRun_toolUse_step (client : MClient) (env : FnEnv)
    (registry : Registry) (fuel : Nat) (ms : List Message)
    (h : (client ms).stopReason = "tool_use") :
    chatRun client env registry (fuel + 1) ms =
      (chatRun client env registry fuel
          (processResponse env registry (client ms) ms)).map
        (fun p => (p.1, p.2.1, client ms :: p.2.2)) := by
  have hunf : chatRun client env registry (fuel + 1) ms =
      (if (client ms).stopReason = "tool_use" then
        match chatRun client env registry fuel
            (processResponse env registry (client ms) ms) with
        | none => none
        | some (r, fms, rs) => some (r, fms, client ms :: rs)
      else some (client ms, ms, [client ms])) := rfl
  rw [hunf, if_pos h]
  cases hres : chatRun client env registry fuel
      (processResponse env registry (client ms) ms) with
  | none => rfl
  | some p => rfl

/-- A string is an infix of any surrounding concatenation. -/
theorem data_infix_append_append (a s b : String) :
    s.data <:+: (a ++ s ++ b).data := by
  refine ⟨a.data, b.data, ?_⟩
  rw [String.data_append, String.data_append]

/-- A string is an infix of any concatenation it ends. -/
theorem data_infix_append_right (a s : String) :
    s.data <:+: (a ++ s).data := by
  refine ⟨a.data, [], ?_⟩
  rw [String.data_append, List.append_nil]

/-- Inserting a key makes lookup of that key return the inserted value. -/
theorem dictGet_dictInsert_self (r : Registry) (n : String) (f : PyFn) :
    dictGet (dictInsert r n f) n = some f := by
  induction r with
  | nil => simp [dictInsert, dictGet]
  | cons kv rest ih =>
    obtain ⟨k, v⟩ := kv
    by_cases h : k = n
    · simp [dictInsert, h, dictGet]
    · simp [dictInsert, h, dictGet, ih]

/-- After overwriting key `n` twice, every value of the dict is either a
value the dict already had or the last value written at `n`; the first
value written at `n` is gone. -/
theorem mem_values_dictInsert_twice (r : Registry) (n : String)
    (f1 f2 g : PyFn)
    (hg : g ∈ (dictInsert (dictInsert r n f1) n f2).map Prod.snd) :
    g ∈ r.map Prod.snd ∨ g = f2 := by
  induction r with
  | nil =>
    simp [dictInsert] at hg
    exact Or.inr hg
  | cons kv rest ih =>
    obtain ⟨k, v⟩ := kv
    by_cases h : k = n
    · simp [dictInsert, h] at hg
      rcases hg with rfl | hg
      · exact Or.inr rfl
      · exact Or.inl (by simp [hg])
    · simp [dictInsert, h] at hg
      rcases hg with rfl | ⟨a, ha⟩
      · exact Or.inl (by simp)
      · rcases ih (List.mem_map.mpr ⟨(a, g), ha, rfl⟩) with h' | h'
        · exact Or.inl (by simp [List.mem_map.mp h'])
        · exact Or.inr h'

-- ---------------------------------------------------------------------------
-- Claim theorems
-- ---------------------------------------------------------------------------

/-- C6: `register_tool` raises when the declaration lacks a name
(`KeyError`) or the function is not callable (`AssertionError`); both raises
happen before any mutation, so the advertised declarations list and the
registry are the unchanged `s`. -/
theorem c6_register_invalid (s : OrchState) (d : ToolDef) (f : PyFn)
    (h : d.name = none ∨ f.callable = false) :
    ∃ e, registerTool s d f = RegResult.raised e s := by
  rcases h with h | h
  · exact ⟨RegError.keyErrorName, by simp [registerTool, h]⟩
  · cases hn : d.name with
    | none => exact ⟨RegError.keyErrorName, by simp [registerTool, hn]⟩
    | some n =>
      exact ⟨RegError.assertNotCallable, by simp [registerTool, hn, h]⟩

/-- C6 witness: registering a declaration with no name raises and leaves
the empty state unchanged. -/
theorem c6_register_invalid_witness :
    ∃ e, registerTool ⟨[], []⟩ ⟨none, "d"⟩ ⟨0, true⟩ =
      RegResult.raised e ⟨[], []⟩ :=
  c6_register_invalid ⟨[], []⟩ ⟨none, "d"⟩ ⟨0, true⟩ (Or.inl rfl)

/-- C7: after two successful registrations under the same name, dispatch of
that name resolves and invokes the second function; the registry holds no
entry for the discarded first function (given its identifier was fresh and
differs from the second), while the advertised declarations list retains
both declarations. -/
theorem c7_last_registration_wins (s : OrchState) (d1 d2 : ToolDef)
    (f1 f2 : PyFn) (n : String) (env : FnEnv) (args : ToolArgs)
    (h1 : d1.name = some n) (h2 : d2.name = some n)
    (hc1 : f1.callable = true) (hc2 : f2.callable = true)
    (hne : f1.fid ≠ f2.fid)
    (hfresh : f1.fid ∉ s.registry.map (fun p => p.2.fid)) :
    ∃ s1 s2 : OrchState,
      registerTool s d1 f1 = RegResult.ok s1 ∧
      registerTool s1 d2 f2 = RegResult.ok s2 ∧
      dictGet s2.registry n = some f2 ∧
      executeLocalTool env s2.registry n args =
        (match env f2.fid args with
         | Except.ok v => (v, false)
         | Except.error exc => (toolFailMsg exc, true)) ∧
      f1.fid ∉ s2.registry.map (fun p => p.2.fid) ∧
      s2.tools = s.tools ++ [d1, d2] := by
  refine ⟨⟨s.tools ++ [d1], dictInsert s.registry n f1⟩,
    ⟨(s.tools ++ [d1]) ++ [d2],
      dictInsert (dictInsert s.registry n f1) n f2⟩, ?_, ?_, ?_, ?_, ?_, ?_⟩
  · simp [registerTool, h1, hc1]
  · simp [registerTool, h2, hc2]
  · exact dictGet_dictInsert_self _ n f2
  · simp only [executeLocalTool, dictGet_dictInsert_self]
  · intro hmem
    rcases List.mem_map.mp hmem with ⟨p, hp, hfid⟩
    have hval : p.2 ∈ (dictInsert (dictInsert s.registry n f1) n f2).map Prod.snd :=
      List.mem_map.mpr ⟨p, hp, rfl⟩
    rcases mem_values_dictInsert_twice s.registry n f1 f2 p.2 hval with h' | h'
    · rcases List.mem_map.mp h' with ⟨q, hq, hq2⟩
      exact hfresh (List.mem_map.mpr ⟨q, hq, by rw [hq2, hfid]⟩)
    · exact hne (by rw [← hfid, h'])
  · simp

/-- C7 witness: two concrete registrations of the name `t`. -/
theorem c7_last_registration_wins_witness :
    ∃ s1 s2 : OrchState,
      registerTool ⟨[], []⟩ ⟨some "t", "a"⟩ ⟨1, true⟩ = RegResult.ok s1 ∧
      registerTool s1 ⟨some "t", "b"⟩ ⟨2, true⟩ = RegResult.ok s2 ∧
      dictGet s2.registry "t" = some ⟨2, true⟩ ∧
      executeLocalTool (fun i _ => Except.ok (toString i)) s2.registry "t" [] =
        (match (fun (i : Nat) (_ : ToolArgs) => Except.ok (ε := String) (toString i))
            2 ([] : ToolArgs) with
         | Except.ok v => (v, false)
         | Except.error exc => (toolFailMsg exc, true)) ∧
      (1 : Nat) ∉ s2.registry.map (fun p => p.2.fid) ∧
      s2.tools = ([] : List ToolDef) ++ [⟨some "t", "a"⟩, ⟨some "t", "b"⟩] :=
  c7_last_registration_wins ⟨[], []⟩ ⟨some "t", "a"⟩ ⟨some "t", "b"⟩
    ⟨1, true⟩ ⟨2, true⟩ "t" (fun i _ => Except.ok (toString i)) []
    rfl rfl rfl rfl (by decide) (by simp)

/-- C9: in `fetch_emails`, when `content_keywords` is non-empty, the text
searched for each keyword is the subject concatenated with the lowercased
body with no separator, and an email is included in the result exactly when
at least one keyword, lowercased, occurs as a substring of that
concatenation. -/
theorem c9_content_keyword_match (msgs : List EmailData) (kws : List String)
    (e : EmailData) (hne : kws ≠ []) :
    e ∈ fetchEmailsFilter msgs (some kws) ↔
      e ∈ msgs ∧ ∃ k, k ∈ kws ∧
        (k.toLower).data <:+: (e.subject ++ e.body.toLower).data := by
  rw [fetchEmailsFilter_eq_filter, List.mem_filter]
  have hm : emailContentMatch (some kws) e = true ↔
      ∃ k, k ∈ kws ∧ (k.toLower).data <:+: (e.subject ++ e.body.toLower).data := by
    rw [show emailContentMatch (some kws) e =
        contentMatchLoop (e.subject ++ e.body.toLower) kws from rfl]
    rw [contentMatchLoop_iff]
    constructor
    · rintro ⟨k, hk, hp⟩
      exact ⟨k, hk, of_decide_eq_true hp⟩
    · rintro ⟨k, hk, hp⟩
      exact ⟨k, hk, decide_eq_true hp⟩
  rw [hm]

/-- C9 witness: a concrete email whose lowercased body contains the
lowercased keyword is included. -/
theorem c9_content_keyword_match_witness :
    (⟨"Re: plans", "We FLY on Monday"⟩ : EmailData) ∈
        fetchEmailsFilter [⟨"Re: plans", "We FLY on Monday"⟩] (some ["Fly"]) ↔
      (⟨"Re: plans", "We FLY on Monday"⟩ : EmailData) ∈
          [(⟨"Re: plans", "We FLY on Monday"⟩ : EmailData)] ∧
        ∃ k, k ∈ ["Fly"] ∧ (k.toLower).data <:+:
          ((⟨"Re: plans", "We FLY on Monday"⟩ : EmailData).subject ++
            (⟨"Re: plans", "We FLY on Monday"⟩ : EmailData).body.toLower).data :=
  c9_content_keyword_match [⟨"Re: plans", "We FLY on Monday"⟩] ["Fly"]
    ⟨"Re: plans", "We FLY on Monday"⟩ (by decide)

/-- C4: a request naming a tool with no binding in the registry yields a
ToolOutcome with the error flag set, whose text is the diagnostic that
contains the missing tool name as a substring; dispatch is a total function
(no exception channel exists for it to escape `chat` through), and for any
tool-use response the loop proceeds to the next model-client call. -/
theorem c4_tool_not_found (env : FnEnv) (registry : Registry) (name : String)
    (kwargs : ToolArgs) (h : dictGet registry name = none) :
    executeLocalTool env registry name kwargs = (noToolMsg name, true) ∧
      name.data <:+: (noToolMsg name).data ∧
      ∀ (client : MClient) (fuel : Nat) (ms : List Message),
        (client ms).stopReason = "tool_use" →
          chatRun client env registry (fuel + 1) ms =
            (chatRun client env registry fuel
                (processResponse env registry (client ms) ms)).map
              (fun p => (p.1, p.2.1, client ms :: p.2.2)) := by
  refine ⟨?_, ?_, ?_⟩
  · unfold executeLocalTool
    rw [h]
  · unfold noToolMsg
    exact data_infix_append_append
      ("No local implementation found for tool " ++ squote) name squote
  · intro client fuel ms hm
    exact chatRun_toolUse_step client env registry fuel ms hm

/-- C4 witness: dispatching the never-registered name `get_flight_status`
against the empty registry produces the error-flagged diagnostic. -/
theorem c4_tool_not_found_witness :
    executeLocalTool (fun _ _ => Except.ok "") [] "get_flight_status" [] =
        (noToolMsg "get_flight_status", true) ∧
      ("get_flight_status").data <:+: (noToolMsg "get_flight_status").data ∧
      ∀ (client : MClient) (fuel : Nat) (ms : List Message),
        (client ms).stopReason = "tool_use" →
          chatRun client (fun _ _ => Except.ok "") [] (fuel + 1) ms =
            (chatRun client (fun _ _ => Except.ok "") [] fuel
                (processResponse (fun _ _ => Except.ok "") [] (client ms) ms)).map
              (fun p => (p.1, p.2.1, client ms :: p.2.2)) :=
  c4_tool_not_found (fun _ _ => Except.ok "") [] "get_flight_status" [] rfl

/-- C5: when the registered capability function raises, dispatch returns a
ToolOutcome with the error flag set whose text carries the exception message
verbatim as a substring, the exception is absorbed at that boundary (the
dispatch function is total), and for any tool-use response the loop
proceeds to the next model-client call. -/
theorem c5_capability_failure (env : FnEnv) (registry : Registry)
    (name : String) (kwargs : ToolArgs) (f : PyFn) (emsg : String)
    (hf : dictGet registry name = some f)
    (he : env f.fid kwargs = Except.error emsg) :
    executeLocalTool env registry name kwargs = (toolFailMsg emsg, true) ∧
      emsg.data <:+: (toolFailMsg emsg).data ∧
      ∀ (client : MClient) (fuel : Nat) (ms : List Message),
        (client ms).stopReason = "tool_use" →
          chatRun client env registry (fuel + 1) ms =
            (chatRun client env registry fuel
                (processResponse env registry (client ms) ms)).map
              (fun p => (p.1, p.2.1, client ms :: p.2.2)) := by
  refine ⟨?_, ?_, ?_⟩
  · simp only [executeLocalTool, hf, he]
  · unfold toolFailMsg
    exact data_infix_append_right "Tool execution failed: " emsg
  · intro client fuel ms hm
    exact chatRun_toolUse_step client env registry fuel ms hm

/-- C5 witness: a capability that always raises `boom` yields the
error-flagged outcome carrying `boom`. -/
theorem c5_capability_failure_witness :
    executeLocalTool (fun _ _ => Except.error "boom") [("w", ⟨0, true⟩)] "w" [] =
        (toolFailMsg "boom", true) ∧
      ("boom").data <:+: (toolFailMsg "boom").data ∧
      ∀ (client : MClient) (fuel : Nat) (ms : List Message),
        (client ms).stopReason = "tool_use" →
          chatRun client (fun _ _ => Except.error "boom") [("w", ⟨0, true⟩)]
              (fuel + 1) ms =
            (chatRun client (fun _ _ => Except.error "boom") [("w", ⟨0, true⟩)]
                fuel
                (processResponse (fun _ _ => Except.error "boom")
                  [("w", ⟨0, true⟩)] (client ms) ms)).map
              (fun p => (p.1, p.2.1, client ms :: p.2.2)) :=
  c5_capability_failure (fun _ _ => Except.error "boom") [("w", ⟨0, true⟩)]
    "w" [] ⟨0, true⟩ "boom" rfl rfl

/-- C10: `fetch_emails` with `content_keywords` equal to None or the empty
list returns the empty list, however many messages the Gmail query
matched. -/
theorem c10_no_keywords_empty_result (msgs : List EmailData) :
    fetchEmailsFilter msgs none = [] ∧ fetchEmailsFilter msgs (some []) = [] := by
  constructor
  · rw [fetchEmailsFilter_eq_filter]
    simp [emailContentMatch]
  · rw [fetchEmailsFilter_eq_filter]
    simp [emailContentMatch, contentMatchLoop]

/-- C1: evaluation of the dispatch branch at a response carrying two
tool-use blocks.  The loop body extends `messages` inside the per-block
`for` loop, so the two blocks append four turns — the assistant turn
repeated once per block and one single-outcome user turn per block — not
the two turns (one assistant turn, one user turn with both outcomes) the
claim states. -/
theorem c1_per_block_turn_pairs :
    processResponse env0 reg0 respTwo msP =
      msP ++
        [⟨"assistant", MsgContent.modelBlocks respTwo.content⟩,
         ⟨"user", MsgContent.toolResults [⟨"id1", "r", false⟩]⟩,
         ⟨"assistant", MsgContent.modelBlocks respTwo.content⟩,
         ⟨"user", MsgContent.toolResults [⟨"id2", "r", false⟩]⟩] ∧
      (processResponse env0 reg0 respTwo msP).length = msP.length + 4 ∧
      (processResponse env0 reg0 respTwo msP).length ≠ msP.length + 2 := by
  refine ⟨rfl, rfl, ?_⟩
  decide

/-- C2: whenever the chat loop terminates, the model responses it received
were some number N of tool-use responses followed by one final response,
the model client was called exactly N + 1 times (the received-response list
has length N + 1), and the final response is returned to the caller
unchanged. -/
theorem c2_call_count (client : MClient) (env : FnEnv) (registry : Registry) :
    ∀ (fuel : Nat) (ms0 : List Message) (resp : ModelResponse)
      (fms : List Message) (rs : List ModelResponse),
      chatRun client env registry fuel ms0 = some (resp, fms, rs) →
      resp.stopReason ≠ "tool_use" ∧
      (∀ r ∈ rs.dropLast, r.stopReason = "tool_use") ∧
      rs.getLast? = some resp ∧
      rs ≠ [] ∧
      rs.length = rs.dropLast.length + 1 := by
  intro fuel
  induction fuel with
  | zero =>
    intro ms0 resp fms rs h
    exact absurd h (by simp [chatRun])
  | succ fuel ih =>
    intro ms0 resp fms rs h
    have hunf : chatRun client env registry (fuel + 1) ms0 =
        (if (client ms0).stopReason = "tool_use" then
          match chatRun client env registry fuel
              (processResponse env registry (client ms0) ms0) with
          | none => none
          | some (r, f, rs') => some (r, f, client ms0 :: rs')
        else some (client ms0, ms0, [client ms0])) := rfl
    rw [hunf] at h
    by_cases hcond : (client ms0).stopReason = "tool_use"
    · rw [if_pos hcond] at h
      cases hrec : chatRun client env registry fuel
          (processResponse env registry (client ms0) ms0) with
      | none =>
        rw [hrec] at h
        exact absurd h (by simp)
      | some p =>
        obtain ⟨r, f, rs'⟩ := p
        rw [hrec] at h
        simp only [Option.some.injEq, Prod.mk.injEq] at h
        obtain ⟨rfl, rfl, rfl⟩ := h
        obtain ⟨hr, hall, hlast, hne, _⟩ := ih _ _ _ _ hrec
        obtain ⟨b, t, rfl⟩ := List.exists_cons_of_ne_nil hne
        refine ⟨hr, ?_, ?_, by simp, ?_⟩
        · intro x hx
          rw [List.dropLast_cons₂] at hx
          rcases List.mem_cons.mp hx with rfl | hx
          · exact hcond
          · exact hall x hx
        · rw [List.getLast?_cons_cons]
          exact hlast
        · exact length_eq_dropLast_length_succ _ (by simp)
    · rw [if_neg hcond] at h
      simp only [Option.some.injEq, Prod.mk.injEq] at h
      obtain ⟨rfl, rfl, rfl⟩ := h
      exact ⟨hcond, by simp, by simp, by simp,
        length_eq_dropLast_length_succ _ (by simp)⟩

/-- C2 witness: a concrete run with one tool-use response followed by one
final response makes exactly two client calls and returns the final
response. -/
theorem c2_call_count_witness :
    respFinal.stopReason ≠ "tool_use" ∧
      (∀ r ∈ ([respTool, respFinal] : List ModelResponse).dropLast,
        r.stopReason = "tool_use") ∧
      ([respTool, respFinal] : List ModelResponse).getLast? = some respFinal ∧
      ([respTool, respFinal] : List ModelResponse) ≠ [] ∧
      ([respTool, respFinal] : List ModelResponse).length =
        ([respTool, respFinal] : List ModelResponse).dropLast.length + 1 :=
  c2_call_count client1 env0 reg0 2 msP respFinal msAfterTool
    [respTool, respFinal] (by decide)

/-- Result counts add over transcript concatenation. -/
theorem countResults_append (id : String) (ms ms' : List Message) :
    countResults id (ms ++ ms') = countResults id ms + countResults id ms' := by
  simp [countResults]

/-- One per-block dispatch adds one result tagged with the block id if the
block is a tool-use block, and nothing otherwise; the assistant turn it
also appends holds no tool_result block. -/
theorem countResults_dispatchStep (env : FnEnv) (registry : Registry)
    (rc : List ContentBlock) (ms : List Message) (id : String)
    (b : ContentBlock) :
    countResults id (dispatchStep env registry rc ms b) =
      countResults id ms +
        (match b with
         | ContentBlock.toolUse bid _ _ => if bid = id then 1 else 0
         | _ => 0) := by
  cases b with
  | text s => simp [dispatchStep]
  | toolUse bid name input =>
    rw [dispatchStep, countResults_append]
    by_cases hbid : bid = id
    · simp [countResults, msgResultCount, hbid]
    · simp [countResults, msgResultCount, hbid]

/-- Folding the dispatch over a block list adds, for each id, as many
results as the id occurs among the tool-use block ids. -/
theorem countResults_foldl (env : FnEnv) (registry : Registry)
    (rc : List ContentBlock) (id : String) :
    ∀ (bs : List ContentBlock) (ms : List Message),
      countResults id (bs.foldl (dispatchStep env registry rc) ms) =
        countResults id ms + (toolUseIds bs).count id := by
  intro bs
  induction bs with
  | nil => intro ms; simp [toolUseIds]
  | cons b rest ih =>
    intro ms
    rw [List.foldl_cons, ih, countResults_dispatchStep]
    cases b with
    | text s => simp [toolUseIds]
    | toolUse bid name input =>
      have hids : toolUseIds (ContentBlock.toolUse bid name input :: rest) =
          bid :: toolUseIds rest := rfl
      rw [hids, List.count_cons]
      by_cases hbid : bid = id
      · simp [hbid, Nat.add_comm, Nat.add_assoc, Nat.add_left_comm]
      · simp [hbid]

/-- C3: in one loop iteration over a tool-use response whose tool-use block
ids are pairwise distinct, every requested invocation id gains exactly one
tool_result tagged with it in the conversation state before the next model
client call, regardless of how many tool-use blocks the response holds. -/
theorem c3_one_outcome_per_request (env : FnEnv) (registry : Registry)
    (resp : ModelResponse) (ms : List Message) (id : String)
    (hnd : (toolUseIds resp.content).Nodup)
    (hmem : id ∈ toolUseIds resp.content) :
    countResults id (processResponse env registry resp ms) =
      countResults id ms + 1 := by
  rw [processResponse, countResults_foldl]
  rw [List.count_eq_one_of_mem hnd hmem]

/-- C3 witness: in the two-request response, the id `id1` gains exactly one
tagged result. -/
theorem c3_one_outcome_per_request_witness :
    countResults "id1" (processResponse env0 reg0 respTwo msP) =
      countResults "id1" msP + 1 :=
  c3_one_outcome_per_request env0 reg0 respTwo msP "id1" (by decide) (by decide)

/-- Dispatch depends on the capability environment only through the calls
it makes. -/
theorem executeLocalTool_congr (e1 e2 : FnEnv) (registry : Registry)
    (name : String) (kwargs : ToolArgs) (he : ∀ i a, e1 i a = e2 i a) :
    executeLocalTool e1 registry name kwargs =
      executeLocalTool e2 registry name kwargs := by
  unfold executeLocalTool
  cases dictGet registry name with
  | none => rfl
  | some f => simp only [he]

/-- One per-block dispatch step is determined by the collaborator
behaviour. -/
theorem dispatchStep_congr (e1 e2 : FnEnv) (registry : Registry)
    (rc : List ContentBlock) (ms : List Message) (b : ContentBlock)
    (he : ∀ i a, e1 i a = e2 i a) :
    dispatchStep e1 registry rc ms b = dispatchStep e2 registry rc ms b := by
  cases b with
  | text s => rfl
  | toolUse id name input =>
    simp only [dispatchStep]
    rw [executeLocalTool_congr e1 e2 registry name input he]

/-- The whole dispatch branch is determined by the collaborator
behaviour. -/
theorem processResponse_congr (e1 e2 : FnEnv) (registry : Registry)
    (resp : ModelResponse) (he : ∀ i a, e1 i a = e2 i a) :
    ∀ ms, processResponse e1 registry resp ms =
      processResponse e2 registry resp ms := by
  have hfold : ∀ (bs rc : List ContentBlock) (ms : List Message),
      bs.foldl (dispatchStep e1 registry rc) ms =
        bs.foldl (dispatchStep e2 registry rc) ms := by
    intro bs
    induction bs with
    | nil => intro rc ms; rfl
    | cons b rest ih =>
      intro rc ms
      rw [List.foldl_cons, List.foldl_cons,
        dispatchStep_congr e1 e2 registry rc ms b he, ih]
  intro ms
  exact hfold resp.content resp.content ms

/-- C8: `chat` is a deterministic function of its prompt and the behaviour
of its collaborators — two runs against model clients and capability
environments that behave identically produce identical final responses and
identical transcripts, so two calls with identical initial prompts against
deterministic stubs coincide. -/
theorem c8_chat_deterministic (c1 c2 : MClient) (e1 e2 : FnEnv)
    (registry : Registry) (hc : ∀ ms, c1 ms = c2 ms)
    (he : ∀ i a, e1 i a = e2 i a) :
    (∀ (fuel : Nat) (ms : List Message),
      chatRun c1 e1 registry fuel ms = chatRun c2 e2 registry fuel ms) ∧
    (∀ (fuel : Nat) (prompt : String),
      chat c1 e1 registry fuel prompt = chat c2 e2 registry fuel prompt) := by
  have hrun : ∀ (fuel : Nat) (ms : List Message),
      chatRun c1 e1 registry fuel ms = chatRun c2 e2 registry fuel ms := by
    intro fuel
    induction fuel with
    | zero => intro ms; rfl
    | succ fuel ih =>
      intro ms
      have h1 : chatRun c1 e1 registry (fuel + 1) ms =
          (if (c1 ms).stopReason = "tool_use" then
            match chatRun c1 e1 registry fuel
                (processResponse e1 registry (c1 ms) ms) with
            | none => none
            | some (r, f, rs) => some (r, f, c1 ms :: rs)
          else some (c1 ms, ms, [c1 ms])) := rfl
      have h2 : chatRun c2 e2 registry (fuel + 1) ms =
          (if (c2 ms).stopReason = "tool_use" then
            match chatRun c2 e2 registry fuel
                (processResponse e2 registry (c2 ms) ms) with
            | none => none
            | some (r, f, rs) => some (r, f, c2 ms :: rs)
          else some (c2 ms, ms, [c2 ms])) := rfl
      rw [h1, h2, hc ms,
        processResponse_congr e1 e2 registry (c2 ms) he ms, ih]
  refine ⟨hrun, ?_⟩
  intro fuel prompt
  unfold chat
  rw [hrun fuel [⟨"user", MsgContent.text prompt⟩]]

/-- C8 witness: a run against two identically behaving spellings of the
same stub client and capability environment yields the same transcript and
the same final response. -/
theorem c8_chat_deterministic_witness :
    chatRun client1 env0 reg0 2 msP = chatRun client1b env0b reg0 2 msP :=
  (c8_chat_deterministic client1 client1b env0 env0b reg0
    (fun _ => rfl) (fun _ _ => rfl)).1 2 msP

end Tripsy
